import Mathlib

/-!
Verification development for the kbuc-miner repository.

This file gives a shallow embedding, in Lean 4, of the parts of the
JavaScript source that the specification's claims talk about:

* `src/src/utils/hashingUtils.js` — header-prefix / header construction
  (`buildHeaderPrefix`, `buildHeaderWithNonce`);
* `src/src/main.js` — the GPU compute process's mining loop (batch
  clamping against the 32-bit nonce limit) and its structured
  `solution` event, plus the CPU worker (`CPUWorker`): worker offsets
  and the `solution` message it posts to its parent;
* `src/src/engines/GPUMiner.js` — the recovery state machine of the
  external-process GPU engine (`WebGPUMiner`): start/stop, the child
  `exit` handler, `_scheduleRestart`, the restart timer body, and the
  `solution` event's failure-streak reset;
* `src/core/MiningSystem.js` — the orchestrator: solution
  de-duplication (`handleSolution`), nonce rollover
  (`handleMinerError`), and metrics accumulation
  (`handleMinerMetrics`).

JavaScript numbers that the source masks with `>>> 0` are modelled as
`Nat` reduced modulo `2^32`; Node `Buffer`s are modelled as `List Nat`
(one byte per entry).  Timers are modelled by recording the pending
request in the state and exposing the timer callback as an explicit
transition (`timerFire`); external I/O (child-process spawning, file
writes, RPC broadcast) is modelled by counters/logs recording that the
call happened.  Floating-point hash-rate fields, loggers, and the
readiness-promise plumbing are not in scope of any claim and are
omitted from the state.
-/

set_option maxRecDepth 8000

/-- JavaScript `x >>> 0` on a non-negative integer: reduction mod `2^32`. -/
def jsU32 (n : Nat) : Nat := n % 4294967296

namespace HashingUtils

/-- Hex digit value accepted by Node's `Buffer.from(s, "hex")` decoder. -/
def hexDigitVal (c : Char) : Option Nat :=
  if '0' ≤ c ∧ c ≤ '9' then some (c.toNat - 48)
  else if 'a' ≤ c ∧ c ≤ 'f' then some (c.toNat - 87)
  else if 'A' ≤ c ∧ c ≤ 'F' then some (c.toNat - 55)
  else none

/-- Node `Buffer.from(s, "hex")` semantics on a character list: decode
hex pairs from the left and stop (without error) at the first pair that
is not two hex digits; a trailing odd character is dropped. -/
def hexDecodeList : List Char → List Nat
  | c1 :: c2 :: rest =>
    match hexDigitVal c1, hexDigitVal c2 with
    | some h, some l => (16 * h + l) :: hexDecodeList rest
    | _, _ => []
  | _ => []

/-- Node `Buffer.from(s, "hex")`: hex decoding of a string, never failing. -/
def hexDecode (s : String) : List Nat := hexDecodeList s.data

/-- Node `src.copy(tgt, off)`: overwrite `tgt` starting at byte `off`
with as many bytes of `src` as fit; the target's length never changes. -/
def bufCopy (src tgt : List Nat) (off : Nat) : List Nat :=
  tgt.take off ++ src.take (tgt.length - off) ++ tgt.drop (off + src.length)

/-- Little-endian byte serialization of a 32-bit value, as written by
Node `buf.writeUInt32LE`. -/
def u32LEBytes (v : Nat) : List Nat :=
  [v % 256, v / 256 % 256, v / 65536 % 256, v / 16777216 % 256]

/-- Node `buf.writeUInt32LE(v, off)` for an in-range value. -/
def bufWriteU32LE (buf : List Nat) (off v : Nat) : List Nat :=
  bufCopy (u32LEBytes v) buf off

/-- Mining configuration as consumed by `hashingUtils.js`: the two
addresses are hex strings; numeric fields are masked with `>>> 0` at
their write sites. -/
structure HashCfg where
  leader_address : String
  reward_address : String
  block_height : Nat
  mining_type : Nat
  timestamp : Nat
deriving Repr, DecidableEq

/-- Model of `buildHeaderPrefix(cfg)` from `src/src/utils/hashingUtils.js`.

The source allocates a zero-filled 84-byte buffer and writes, in order:
byte 32 at offset 0; 32 zero bytes at offset 1; byte 20 at offset 33;
the hex-decoded `leader_address` at offset 34; `block_height >>> 0`
little-endian at offset 54; byte 20 at offset 58; the hex-decoded
`reward_address` at offset 59; `mining_type >>> 0` as one byte at
offset 79; `timestamp >>> 0` little-endian at offset 80.  It performs
no validation of the decoded address lengths (Node's hex decoder never
throws on a string); the only write that can throw inside the `try` is
`writeUInt8(mining_type >>> 0, 79)` when the masked value exceeds 255,
which the `catch` rethrows as a failed-prefix error. -/
def buildHeaderPrefixBuf (cfg : HashCfg) : Except String (List Nat) :=
  let leader := hexDecode cfg.leader_address
  let reward := hexDecode cfg.reward_address
  let buf0 := List.replicate 84 0
  let buf1 := buf0.set 0 32
  let buf2 := bufCopy (List.replicate 32 0) buf1 1
  let buf3 := buf2.set 33 20
  let buf4 := bufCopy leader buf3 34
  let buf5 := bufWriteU32LE buf4 54 (jsU32 cfg.block_height)
  let buf6 := buf5.set 58 20
  let buf7 := bufCopy reward buf6 59
  if jsU32 cfg.mining_type ≤ 255 then
    let buf8 := buf7.set 79 (jsU32 cfg.mining_type)
    let buf9 := bufWriteU32LE buf8 80 (jsU32 cfg.timestamp)
    Except.ok buf9
  else
    Except.error "Failed to build header prefix: value out of range"

/-- Model of `buildHeaderWithNonce(pre, nonce)` from
`src/src/utils/hashingUtils.js`: allocate a zero buffer of
`pre.length + 4` bytes, copy the prefix to offset 0, and write
`nonce >>> 0` little-endian at offset `pre.length`. -/
def buildHeaderWithNonce (pre : List Nat) (nonce : Nat) : List Nat :=
  let msg := List.replicate (pre.length + 4) 0
  let msg := bufCopy pre msg 0
  bufWriteU32LE msg pre.length (jsU32 nonce)

end HashingUtils

namespace GpuLoop

/-- Fixed maximum allowed nonce from `src/src/main.js`: `MAX_NONCE = 0xffffffff`. -/
def MAX_NONCE : Nat := 4294967295

/-- Result of the per-iteration batch clamping in the GPU compute
process's mining loop (`src/src/main.js`, the `STOP_AT_NONCE_LIMIT`
block): the effective `batchCount` for this dispatch, and the
`hitLimit` flag that makes the loop break after the dispatch. -/
structure BatchPlan where
  batchCount : Nat
  hitLimit : Bool
deriving Repr, DecidableEq

/-- Model of the clamping step: `remaining = MAX_NONCE - currentBase + 1`
(a plain JS number, possibly non-positive); if `remaining <= 0` the
loop breaks before dispatching (`none`); otherwise
`batchCount = Math.min(count, remaining)` and
`hitLimit = (batchCount === remaining)`. -/
def planBatch (count currentBase : Nat) : Option BatchPlan :=
  let remaining : Int := (MAX_NONCE : Int) - (currentBase : Int) + 1
  if remaining ≤ 0 then none
  else some { batchCount := min count remaining.toNat,
              hitLimit := decide (min count remaining.toNat = remaining.toNat) }

/-- Cursor advance after a dispatched batch, from both the success and
the error path of the loop: `currentBase = (currentBase + batchCount) >>> 0`;
when `hitLimit` is set the loop breaks immediately afterwards. -/
def advanceBase (currentBase batchCount : Nat) : Nat :=
  jsU32 (currentBase + batchCount)

end GpuLoop

namespace SolutionMsg

/-- A JavaScript value as it appears in a delivered solution field:
either a number or a string.  Used to state in which representation the
`nonce` reaches the orchestrator. -/
inductive JsVal where
  | num (n : Nat)
  | str (s : String)
deriving Repr, DecidableEq

/-- Whether a delivered field is a number in `[0, 2^32)`, i.e. a uint32. -/
def isU32Num : JsVal → Bool
  | .num n => n < 4294967296
  | .str _ => false

/-- Lowercase hex digit characters, as produced by `toString(16)` and
`Buffer.toString("hex")`. -/
def hexChar (n : Nat) : Char :=
  if n < 10 then Char.ofNat (48 + n) else Char.ofNat (87 + n % 16)

/-- Node `Buffer.prototype.toString("hex")`: two lowercase hex digits
per byte. -/
def bytesToHex (bytes : List Nat) : String :=
  ⟨bytes.flatMap (fun b => [hexChar (b % 256 / 16), hexChar (b % 256 % 16)])⟩

/-- JavaScript `n.toString(16)` for a non-negative integer: minimal
lowercase hex digits ("0" for zero). -/
def natToHexStr (n : Nat) : List Char :=
  if h : n < 16 then [hexChar n]
  else natToHexStr (n / 16) ++ [hexChar (n % 16)]
termination_by n
decreasing_by
  exact Nat.div_lt_self (by omega) (by norm_num)

/-- JavaScript `s.padStart(len, c)`. -/
def padStart (s : List Char) (len : Nat) (c : Char) : List Char :=
  List.replicate (len - s.length) c ++ s

/-- A solution object as delivered through the engine callbacks to the
orchestrator (only the claim-relevant fields). -/
structure Delivered where
  nonce : JsVal
  hash : JsVal
  header : JsVal
deriving Repr, DecidableEq

/-- GPU path.  In the compute process (`src/src/main.js`) each verified
candidate is emitted as
`emit("solution", { nonce, hash: hh.toString("hex"), header: msg.toString("hex") })`
where `nonce = view[base] >>> 0` is a number, `msg =
buildHeaderWithNonce(prefix, nonce)` and `hh = doubleSHA256(msg)`; the
engine's `_handleEvent` (`src/src/engines/GPUMiner.js`) forwards
`{ nonce: evt.nonce, hash: evt.hash, header: evt.header }` unchanged to
`onSolution`.  The double-SHA-256 digest bytes `hh` are taken as a
parameter (Node's `sha256` digest is always 32 bytes). -/
def gpuDelivered (pre : List Nat) (nonce : Nat) (hh : List Nat) : Delivered :=
  { nonce := JsVal.num (jsU32 nonce),
    hash := JsVal.str (bytesToHex hh),
    header := JsVal.str (bytesToHex (HashingUtils.buildHeaderWithNonce pre (jsU32 nonce))) }

/-- CPU path.  `CPUWorker.handleSolution(nonce, hash, header)`
(`src/src/main.js`) posts
`{ nonce: nonce.toString(16).padStart(8, "0"), hash, header, workerId }`
where `hash = finalHashBE.toString("hex")` and
`header = buildHeaderWithNonce(this.headerPrefix, nonce).toString("hex")`;
`CPUMiner.handleSolution` then forwards this object unchanged to
`onSolution`.  The digest bytes are again a parameter. -/
def cpuDelivered (pre : List Nat) (nonce : Nat) (hh : List Nat) : Delivered :=
  { nonce := JsVal.str ⟨padStart (natToHexStr nonce) 8 '0'⟩,
    hash := JsVal.str (bytesToHex hh),
    header := JsVal.str (bytesToHex (HashingUtils.buildHeaderWithNonce pre nonce)) }

end SolutionMsg

namespace CPUWorker

/-- Worker stride from the `CPUWorker` constructor in `src/src/main.js`:
`this.workStride = 1000000`. -/
def workStride : Nat := 1000000

/-- Worker starting offset from the `CPUWorker` constructor:
`this.workOffset = (this.baseNonce >>> 0) + (this.workerId * this.workStride)`
(where `this.baseNonce` was itself masked with `>>> 0` on assignment). -/
def workOffset (baseNonce workerId : Nat) : Nat :=
  jsU32 baseNonce + workerId * workStride

end CPUWorker

namespace GpuMiner

/-- Backoff / cooldown configuration of `WebGPUMiner`
(`src/src/engines/GPUMiner.js` constructor), with the source defaults. -/
structure GpuCfg where
  initialBackoffMs : Nat := 1000
  maxBackoffMs : Nat := 30000
  cooldownErrorMs : Nat := 3000
  cooldownDeviceLostMs : Nat := 5000
  fullResetThreshold : Nat := 3
deriving Repr, DecidableEq

/-- A pending restart request, i.e. the arguments captured by the
`setTimeout` in `_scheduleRestart`. -/
structure TimerReq where
  cooldownMs : Nat
  fullReset : Bool
deriving Repr, DecidableEq

/-- Recovery-relevant state of one `WebGPUMiner` instance.  `child`
records whether a compute child process exists; `restartTimer` holds
the pending recovery timer, if any ( `none` once the timer has fired or
been cleared); `currentSession` records whether `this.currentSession`
is set; `spawnCount` counts child-process spawns performed by
`start()`.  Loggers, stream buffers, the readiness promise and the
float-valued stats are omitted; `statsSolutions` and `statsLastNonce`
keep the integer stats touched by the `solution` event. -/
structure MinerState where
  isInitialized : Bool := false
  isRunning : Bool := false
  child : Bool := false
  stopRequested : Bool := false
  isRecovering : Bool := false
  restartTimer : Option TimerReq := none
  consecutiveFailures : Nat := 0
  currentBackoffMs : Nat := 1000
  currentSession : Bool := false
  spawnCount : Nat := 0
  statsSolutions : Nat := 0
  statsLastNonce : Nat := 0
deriving Repr, DecidableEq

/-- Model of `initialize()`: the miner-script path always resolves, so
the only effect is `isInitialized = true`. -/
def initializeFn (s : MinerState) : MinerState :=
  { s with isInitialized := true }

/-- Model of `start(session)` (state effects only).  The source throws
when not initialized (no state was mutated yet, and the restart-timer
caller swallows the exception, so the state is returned unchanged);
returns early when already running; otherwise it records the session,
clears `stopRequested`, resets `consecutiveFailures` and
`_currentBackoffMs` to the initial backoff, and spawns the child
compute process. -/
def startFn (cfg : GpuCfg) (s : MinerState) : MinerState :=
  if !s.isInitialized then s
  else if s.isRunning then s
  else { s with currentSession := true,
                stopRequested := false,
                consecutiveFailures := 0,
                currentBackoffMs := cfg.initialBackoffMs,
                child := true,
                isRunning := true,
                spawnCount := s.spawnCount + 1 }

/-- Model of `stop()`.  With no child process it only clears
`isRunning` and returns (in particular it does NOT set
`stopRequested`).  With a live child it sets `stopRequested`, kills the
child and waits for its exit; the exit handler and the cleanup closure
leave `child = null`, `isRunning = false`.  In neither branch is
`_restartTimer` touched. -/
def stopFn (s : MinerState) : MinerState :=
  if !s.child then { s with isRunning := false }
  else { s with stopRequested := true, child := false, isRunning := false }

/-- Model of `cleanup()`: stop if running, drop initialization, clear
any pending restart timer and the recovering flag. -/
def cleanupFn (s : MinerState) : MinerState :=
  let s := if s.isRunning then stopFn s else s
  { s with isInitialized := false, restartTimer := none, isRecovering := false }

/-- Model of `_scheduleRestart(reason, { cooldownMs, fullReset })`: a
no-op while already recovering or after a stop request; otherwise it
marks the instance as recovering and arms the (single) restart timer. -/
def scheduleRestart (req : TimerReq) (s : MinerState) : MinerState :=
  if s.isRecovering || s.stopRequested then s
  else { s with isRecovering := true, restartTimer := some req }

/-- Model of the child `exit` event handler (`src/src/engines/GPUMiner.js`,
inside `start()`), with `code = some c` for an exit code and `none`
for a signal-terminated child.  It captures `running` and
`stopRequested` first, clears `isRunning`/`child`, then: clean exit
(code 0) only reports `nonce_exhausted` upward (no self-restart); any
other exit of a running, not-stop-requested miner increments
`consecutiveFailures`, computes the cooldown `min(currentBackoff, max)`,
doubles the backoff (capped at `max`), and schedules a restart that is
a full reset when the failure count has reached the threshold. -/
def childExit (cfg : GpuCfg) (code : Option Int) (s : MinerState) : MinerState :=
  let running := s.isRunning
  let wasStopRequested := s.stopRequested
  let s := { s with isRunning := false, child := false }
  if running && !wasStopRequested then
    if code = some 0 then s
    else
      let s := { s with consecutiveFailures := s.consecutiveFailures + 1 }
      let needFullReset := decide (cfg.fullResetThreshold ≤ s.consecutiveFailures)
      let cooldown := min s.currentBackoffMs cfg.maxBackoffMs
      let s := { s with currentBackoffMs := min (s.currentBackoffMs * 2) cfg.maxBackoffMs }
      scheduleRestart { cooldownMs := cooldown, fullReset := needFullReset } s
  else s

/-- Model of the `solution` case of `_handleEvent`: bump the solutions
counter, update `stats.lastNonce` when the reported nonce is larger (or
the stat is still zero), forward the solution upward, and reset the
failure streak and the backoff to their initial values. -/
def handleSolutionEvent (cfg : GpuCfg) (nonce : Nat) (s : MinerState) : MinerState :=
  let s := { s with statsSolutions := s.statsSolutions + 1 }
  let n := jsU32 nonce
  let s := if s.statsLastNonce = 0 || s.statsLastNonce < n then { s with statsLastNonce := n } else s
  { s with consecutiveFailures := 0, currentBackoffMs := cfg.initialBackoffMs }

/-- Model of the restart-timer callback armed by `_scheduleRestart`.
When no timer is pending this is a no-op; otherwise the timer is spent,
the body stops a still-live child, performs `cleanup()` +
`initialize()` and resets `consecutiveFailures`/`_currentBackoffMs`
when `fullReset` was requested, restarts via `start(currentSession)`
when a session is tracked (exceptions are swallowed), and finally
clears `_isRecovering`. -/
def timerFire (cfg : GpuCfg) (s : MinerState) : MinerState :=
  match s.restartTimer with
  | none => s
  | some req =>
    let s := { s with restartTimer := none }
    let s := if s.child then stopFn s else s
    let s :=
      if req.fullReset then
        let s := initializeFn (cleanupFn s)
        { s with consecutiveFailures := 0, currentBackoffMs := cfg.initialBackoffMs }
      else s
    let s := if s.currentSession then startFn cfg s else s
    { s with isRecovering := false }

end GpuMiner

namespace MiningSys

/-- Session meta, as initialized by `MiningSystem.start()`
(`src/core/MiningSystem.js`): rollover counter, last observed nonce,
restart-surviving hash and solution accumulators, and the baseline of
the engine's self-reported total.  Sessions created by `start()` always
carry this object; the model restricts attention to such sessions (a
session restored from a state file lacks `meta` until an event
lazily creates a partial one, which the claims do not concern). -/
structure Meta where
  nonceRollovers : Nat := 0
  currentNonce : Nat := 0
  totalHashesAcc : Nat := 0
  lastMinerTotalHashes : Option Nat := none
  solutionsAcc : Nat := 0
deriving Repr, DecidableEq

/-- The claim-relevant fields of a session's mining config. -/
structure MCfg where
  base_nonce : Nat := 0
  timestamp : Nat := 0
deriving Repr, DecidableEq

/-- A session in the orchestrator's registry.  `startCalls` counts
invocations of `session.miner.start(session)` made by the orchestrator
on this session (the restart in the rollover handler). -/
structure Session where
  status : String := "running"
  meta : Meta := {}
  config : Option MCfg := some {}
  startCalls : Nat := 0
deriving Repr, DecidableEq

/-- De-duplication key: the `(nonce, hash)` pair (the source builds the
string "nonce-hash"; two solutions with the same pair always build the
same key). Both components are kept in their string form as delivered. -/
abbrev SolKey := String × String

/-- Orchestrator state (`MiningSystem`).  The `sessions` map is
modelled as a lookup function; `persistLog` / `broadcastLog` record, in
order, the keys for which `saveSolution` / `broadcastSolution` were
invoked.  The 100 ms lock-release timer only removes an entry from
`solutionLock` after the key is already in `foundSolutions`, so it is
not needed for the dedup claims and is not modelled. -/
structure SysState where
  sessions : String → Option Session
  foundSolutions : List SolKey := []
  solutionLock : List SolKey := []
  shouldRun : Bool := true
  statsSolutions : Nat := 0
  statsErrors : Nat := 0
  statsRestarts : Nat := 0
  statsTotalHashes : Nat := 0
  persistLog : List SolKey := []
  broadcastLog : List SolKey := []

/-- Update one session in the registry. -/
def setSession (s : SysState) (sid : String) (sess : Session) : SysState :=
  { s with sessions := fun x => if x = sid then some sess else s.sessions x }

/-- Model of `MiningSystem.handleSolution(sessionId, solution)`.  In
source order: return if the key is already in `foundSolutions`; return
if it is in `solutionLock`; return if the session id is unknown;
otherwise lock the key, add it to `foundSolutions`, bump the global
solutions counter and the session's `solutionsAcc`, then save and
broadcast the solution (failures of these external calls are caught
and logged; the calls themselves are recorded in the logs). -/
def handleSolution (s : SysState) (sid : String) (nonce hash : String) : SysState :=
  let key : SolKey := (nonce, hash)
  if key ∈ s.foundSolutions then s
  else if key ∈ s.solutionLock then s
  else
    match s.sessions sid with
    | none => s
    | some sess =>
      let s := { s with solutionLock := key :: s.solutionLock,
                        foundSolutions := key :: s.foundSolutions,
                        statsSolutions := s.statsSolutions + 1 }
      let sess := { sess with meta := { sess.meta with solutionsAcc := sess.meta.solutionsAcc + 1 } }
      let s := setSession s sid sess
      { s with persistLog := key :: s.persistLog,
               broadcastLog := key :: s.broadcastLog }

/-- Model of `MiningSystem.handleMinerError(sessionId, err)` with
`now = Math.floor(Date.now() / 1000)` passed explicitly.  Unknown
sessions are a logged no-op.  On `nonce_exhausted`: bump
`meta.nonceRollovers`, zero `meta.currentNonce`; when the session has a
config, refresh `config.timestamp` to `now` and zero
`config.base_nonce`; then, only if `shouldRun` is set and the session
is not paused, call `session.miner.start(session)` once, mark the
session running and count a system restart (a start failure is caught;
the model records the attempted start).  Every other error type only
bumps the error counter. -/
def handleMinerError (s : SysState) (sid : String) (errType : String) (now : Nat) : SysState :=
  match s.sessions sid with
  | none => s
  | some sess =>
    if errType = "nonce_exhausted" then
      let sess := { sess with meta := { sess.meta with
                      nonceRollovers := sess.meta.nonceRollovers + 1,
                      currentNonce := 0 } }
      let sess := match sess.config with
        | some c => { sess with config := some { c with timestamp := now, base_nonce := 0 } }
        | none => sess
      if s.shouldRun && sess.status ≠ "paused" then
        let sess := { sess with startCalls := sess.startCalls + 1, status := "running" }
        let s := setSession s sid sess
        { s with statsRestarts := s.statsRestarts + 1 }
      else
        setSession s sid sess
    else
      { s with statsErrors := s.statsErrors + 1 }

/-- Model of `MiningSystem.handleMinerMetrics(sessionId, metrics)` for
the claim-relevant fields (`metrics.lastNonce` and
`metrics.totalHashes`, each present iff finite; the float-valued
`rate` and the performance history are omitted).  Unknown sessions are
a no-op.  A finite `lastNonce` updates `meta.currentNonce` and mirrors
it into `config.base_nonce` (creating the config object when absent,
as `session.config = session.config || ` an empty object).  A finite
`totalHashes` is truncated with `>>> 0`; if a numeric baseline exists
and the truncated value is not below it, the difference is added to
`meta.totalHashesAcc`, otherwise (reset, or first observation) the
truncated value is added in full; the baseline is then updated and
`stats.totalHashes` set to `totalHashesAcc >>> 0`. -/
def handleMinerMetrics (s : SysState) (sid : String)
    (lastNonce totalHashes : Option Nat) : SysState :=
  match s.sessions sid with
  | none => s
  | some sess =>
    let sess :=
      match lastNonce with
      | some ln =>
        let cn := jsU32 ln
        let sess := { sess with meta := { sess.meta with currentNonce := cn } }
        match sess.config with
        | some c => { sess with config := some { c with base_nonce := cn } }
        | none => { sess with config := some { base_nonce := cn, timestamp := 0 } }
      | none => sess
    match totalHashes with
    | some th =>
      let minerTotal := jsU32 th
      let acc :=
        match sess.meta.lastMinerTotalHashes with
        | some last =>
          if last ≤ minerTotal then sess.meta.totalHashesAcc + (minerTotal - last)
          else sess.meta.totalHashesAcc + minerTotal
        | none => sess.meta.totalHashesAcc + minerTotal
      let sess := { sess with meta := { sess.meta with
                      totalHashesAcc := acc,
                      lastMinerTotalHashes := some minerTotal } }
      let s := setSession s sid sess
      { s with statsTotalHashes := jsU32 acc }
    | none => setSession s sid sess

/-- Iterated delivery of the same solution to the orchestrator. -/
def solutionRun (sid nonce hash : String) : Nat → SysState → SysState
  | 0, s => s
  | n + 1, s => solutionRun sid nonce hash n (handleSolution s sid nonce hash)

/-- Iterated delivery of metrics reports (only `totalHashes` present). -/
def metricsRun (sid : String) (vs : List Nat) (s : SysState) : SysState :=
  vs.foldl (fun st v => handleMinerMetrics st sid none (some v)) s

end MiningSys

/-- Concrete config whose `leader_address` does not hex-decode to 20
bytes (it decodes to 0 bytes), used against claim C7. -/
def badAddrCfg : HashingUtils.HashCfg :=
  { leader_address := "",
    reward_address := "89d66c0a217e90f520ca156d22ead95994ba437a",
    block_height := 5,
    mining_type := 1,
    timestamp := 1755491117 }

/-- Default GPU engine configuration (all source defaults). -/
def dGpuCfg : GpuMiner.GpuCfg := {}

/-- Engine freshly initialized and started on a session. -/
def minerRunning : GpuMiner.MinerState :=
  GpuMiner.startFn dGpuCfg (GpuMiner.initializeFn {})

/-- The running engine's child exits with code 1 (generic failure): a
recovery timer is now pending. -/
def minerAfterFail1 : GpuMiner.MinerState :=
  GpuMiner.childExit dGpuCfg (some 1) minerRunning

/-- The user calls `stop()` during the recovery cooldown (child already
gone). -/
def minerStopped : GpuMiner.MinerState := GpuMiner.stopFn minerAfterFail1

/-- The recovery timer that was pending at the `stop()` call fires. -/
def minerAfterTimer : GpuMiner.MinerState := GpuMiner.timerFire dGpuCfg minerStopped

/-- The first recovery completes (timer fires, engine auto-restarts). -/
def minerAfterRecovery : GpuMiner.MinerState := GpuMiner.timerFire dGpuCfg minerAfterFail1

/-- A second consecutive generic failure, after the completed recovery
and with no intervening solution. -/
def minerAfterFail2 : GpuMiner.MinerState :=
  GpuMiner.childExit dGpuCfg (some 1) minerAfterRecovery

namespace MiningSys

/-- Modelled from the spec (C4 accumulation rule, amended only by the
`>>> 0` truncation the code applies to each report): the folded state
is `(totalHashesAcc, baseline)`; a report `v` is truncated to
`m = v mod 2^32`; with no baseline `m` is added in full, with a
baseline `b ≤ m` the difference is added, and with `m < b` (counter
reset) `m` is added in full; `m` becomes the new baseline. -/
def specAccum : Nat × Option Nat → Nat → Nat × Option Nat
  | (acc, base), v =>
    let m := jsU32 v
    match base with
    | none => (acc + m, some m)
    | some b => if b ≤ m then (acc + (m - b), some m) else (acc + m, some m)

/-- A system state holding exactly one freshly created session (as
`MiningSystem.start()` creates it) under id "s1". -/
def freshSysOne : SysState :=
  { sessions := fun x => if x = "s1" then some {} else none }

end MiningSys

namespace HashingUtils

theorem bufCopy_length (src tgt : List Nat) (off : Nat) (h : off ≤ tgt.length) :
    (bufCopy src tgt off).length = tgt.length := by
  simp [bufCopy]
  omega

theorem bufWriteU32LE_length (buf : List Nat) (off v : Nat) (h : off ≤ buf.length) :
    (bufWriteU32LE buf off v).length = buf.length := by
  unfold bufWriteU32LE
  exact bufCopy_length _ _ _ h

theorem buildHeaderWithNonce_length (pre : List Nat) (nonce : Nat) :
    (buildHeaderWithNonce pre nonce).length = pre.length + 4 := by
  unfold buildHeaderWithNonce
  rw [bufWriteU32LE_length, bufCopy_length]
  · simp
  · simp
  · rw [bufCopy_length] <;> simp

end HashingUtils

namespace SolutionMsg

theorem bytesToHex_length (bytes : List Nat) :
    (bytesToHex bytes).length = 2 * bytes.length := by
  show (bytes.flatMap fun b => [hexChar (b % 256 / 16), hexChar (b % 256 % 16)]).length
      = 2 * bytes.length
  induction bytes with
  | nil => rfl
  | cons b rest ih =>
    simp only [List.flatMap_cons, List.length_append, List.length_cons, ih]
    simp; omega

end SolutionMsg

section ClaimTheorems

open HashingUtils GpuLoop SolutionMsg CPUWorker GpuMiner MiningSys

/-- C7 counterexample: the config's `leader_address` hex-decodes to 0
raw bytes (not 20), yet `buildHeaderPrefix` does not fail with an
invalid-configuration error — it returns an 84-byte prefix. -/
theorem c7_counterexample :
    (HashingUtils.hexDecode badAddrCfg.leader_address).length ≠ 20 ∧
    (HashingUtils.buildHeaderPrefixBuf badAddrCfg).toOption.map List.length = some 84 :=
  ⟨by decide, by decide⟩

/-- C7 (amended): `buildHeaderPrefix` performs no validation of the
hex-decoded address lengths; for every configuration whose masked
`mining_type` fits in one byte (the only write that can throw) it
returns a prefix, and that prefix is exactly 84 bytes, whatever the
addresses decode to (short decodes leave the zero fill in place). -/
theorem c7_amended (cfg : HashingUtils.HashCfg) (h : jsU32 cfg.mining_type ≤ 255) :
    ∃ p, HashingUtils.buildHeaderPrefixBuf cfg = Except.ok p ∧ p.length = 84 := by
  simp only [HashingUtils.buildHeaderPrefixBuf]
  rw [if_pos h]
  refine ⟨_, rfl, ?_⟩
  simp [HashingUtils.bufCopy, HashingUtils.bufWriteU32LE, HashingUtils.u32LEBytes]
  omega

/-- C7 amended witness: a fully valid configuration evaluates to an
84-byte prefix through the amended theorem. -/
theorem c7_amended_witness :
    jsU32 badAddrCfg.mining_type ≤ 255 ∧
    ∃ p, HashingUtils.buildHeaderPrefixBuf badAddrCfg = Except.ok p ∧ p.length = 84 :=
  ⟨by decide, c7_amended badAddrCfg (by decide)⟩

/-- C8: in the GPU compute process's mining loop, a dispatched batch
window starting at a cursor inside the nonce space never crosses the
32-bit limit: `currentBase + batchCount ≤ 0xFFFFFFFF + 1`; the batch
that reaches the limit exactly is flagged `hitLimit` (the loop breaks
instead of wrapping), and a non-final batch advances the cursor without
wraparound to a value still inside the nonce space. -/
theorem gpu_batch_clamped (count base : Nat) (hc : 1 ≤ count) (hb : base ≤ GpuLoop.MAX_NONCE) :
    ∃ p, GpuLoop.planBatch count base = some p ∧
      1 ≤ p.batchCount ∧
      base + p.batchCount ≤ GpuLoop.MAX_NONCE + 1 ∧
      (p.hitLimit = true ↔ base + p.batchCount = GpuLoop.MAX_NONCE + 1) ∧
      (p.hitLimit = false →
        GpuLoop.advanceBase base p.batchCount = base + p.batchCount ∧
        GpuLoop.advanceBase base p.batchCount ≤ GpuLoop.MAX_NONCE) := by
  have hb' : base ≤ 4294967295 := hb
  simp only [GpuLoop.planBatch, GpuLoop.MAX_NONCE, GpuLoop.advanceBase, jsU32] at *
  rw [if_neg (by omega)]
  refine ⟨_, rfl, ?_, ?_, ?_, ?_⟩
  · simp only []
    omega
  · simp only []
    omega
  · simp only [decide_eq_true_eq]
    omega
  · simp only [decide_eq_false_iff_not]
    intro hne
    constructor
    · rw [Nat.mod_eq_of_lt (by omega)]
    · rw [Nat.mod_eq_of_lt (by omega)]
      omega

/-- C8 witness: a concrete near-limit cursor and batch size evaluated
through the theorem. -/
theorem gpu_batch_clamped_witness :
    1 ≤ 16384 ∧ 4294967290 ≤ GpuLoop.MAX_NONCE ∧
    (∃ p, GpuLoop.planBatch 16384 4294967290 = some p ∧
      1 ≤ p.batchCount ∧
      4294967290 + p.batchCount ≤ GpuLoop.MAX_NONCE + 1 ∧
      (p.hitLimit = true ↔ 4294967290 + p.batchCount = GpuLoop.MAX_NONCE + 1) ∧
      (p.hitLimit = false →
        GpuLoop.advanceBase 4294967290 p.batchCount = 4294967290 + p.batchCount ∧
        GpuLoop.advanceBase 4294967290 p.batchCount ≤ GpuLoop.MAX_NONCE)) :=
  ⟨by decide, by decide, gpu_batch_clamped 16384 4294967290 (by decide) (by decide)⟩

/-- C10: for CPU workers with stride `S = 1000000` and a uint32 base
nonce `B`, worker `i` starts exactly at `B + i * S`; offsets are
strictly increasing in the worker id, hence pairwise distinct. -/
theorem cpu_worker_offsets (B i j : Nat) (hB : B < 4294967296) (hij : i < j) :
    CPUWorker.workOffset B i = B + i * 1000000 ∧
    CPUWorker.workOffset B i < CPUWorker.workOffset B j ∧
    CPUWorker.workOffset B i ≠ CPUWorker.workOffset B j := by
  unfold CPUWorker.workOffset CPUWorker.workStride jsU32
  rw [Nat.mod_eq_of_lt hB]
  refine ⟨rfl, by omega, by omega⟩

/-- C10 witness: workers 0 and 3 with base 7 evaluated through the
theorem. -/
theorem cpu_worker_offsets_witness :
    7 < 4294967296 ∧ 0 < 3 ∧
    (CPUWorker.workOffset 7 0 = 7 + 0 * 1000000 ∧
     CPUWorker.workOffset 7 0 < CPUWorker.workOffset 7 3 ∧
     CPUWorker.workOffset 7 0 ≠ CPUWorker.workOffset 7 3) :=
  ⟨by decide, by decide, cpu_worker_offsets 7 0 3 (by decide) (by decide)⟩

end ClaimTheorems

section GpuRecoveryClaims

open GpuMiner

/-- C1 counterexample: after a generic failure schedules a recovery
timer, calling `stop()` leaves that timer pending (it is not
cancelled; with no live child `stop()` does not even set
`stopRequested`), and when the timer fires the engine spawns a new
compute process on its own, with no intervening `start()` call from
outside. -/
theorem c1_counterexample :
    minerStopped.restartTimer = some { cooldownMs := 1000, fullReset := false } ∧
    minerStopped.stopRequested = false ∧
    minerStopped.isRunning = false ∧
    minerAfterTimer.child = true ∧
    minerAfterTimer.spawnCount = minerStopped.spawnCount + 1 := by decide

/-- C1 (amended): `stop()` never cancels a pending recovery timer (it
leaves `_restartTimer` untouched in both of its branches); what
`stopRequested` — set only by a `stop()` that found a live child —
does guarantee is that `_scheduleRestart` is a no-op, so no NEW
recovery is scheduled while it remains set; a timer already pending at
the `stop()` call still fires and restarts the engine. -/
theorem c1_amended (s : GpuMiner.MinerState) (req : GpuMiner.TimerReq)
    (h : s.stopRequested = true) :
    (GpuMiner.stopFn s).restartTimer = s.restartTimer ∧
    GpuMiner.scheduleRestart req s = s := by
  constructor
  · unfold GpuMiner.stopFn
    split <;> rfl
  · unfold GpuMiner.scheduleRestart
    rw [h]
    simp

/-- C1 amended witness: evaluated at a stop-requested state that still
has a timer pending. -/
theorem c1_amended_witness :
    (GpuMiner.MinerState.stopRequested
        { stopRequested := true,
          restartTimer := some { cooldownMs := 2000, fullReset := false } } = true) ∧
    ((GpuMiner.stopFn
        { stopRequested := true,
          restartTimer := some { cooldownMs := 2000, fullReset := false } }).restartTimer
        = GpuMiner.MinerState.restartTimer
            { stopRequested := true,
              restartTimer := some { cooldownMs := 2000, fullReset := false } } ∧
     GpuMiner.scheduleRestart { cooldownMs := 1000, fullReset := false }
        { stopRequested := true,
          restartTimer := some { cooldownMs := 2000, fullReset := false } }
        = { stopRequested := true,
            restartTimer := some { cooldownMs := 2000, fullReset := false } }) :=
  ⟨by decide,
   c1_amended
     { stopRequested := true, restartTimer := some { cooldownMs := 2000, fullReset := false } }
     { cooldownMs := 1000, fullReset := false } (by decide)⟩

/-- C5 (code bug): the exit handler does compute
`cooldown = min(currentBackoff, max)` and then doubles the backoff,
but `start()` — which the recovery timer body calls to auto-restart —
resets `_currentBackoffMs` (and `consecutiveFailures`) back to the
initial value, so the second of two consecutive generic failures with a
completed recovery in between is scheduled with the initial 1000 ms
cooldown again, not `min(1000 * 2^(2-1), 30000) = 2000` ms as the
claimed formula requires.  The first conjuncts evaluate the code along
that failing trace and record the claimed value; the last two confirm
the part of the claim the code does satisfy — a verified solution event
resets the failure streak and the backoff to their initial values. -/
theorem c5_backoff_divergence :
    minerAfterFail1.restartTimer = some { cooldownMs := 1000, fullReset := false } ∧
    minerAfterRecovery.isRunning = true ∧
    minerAfterRecovery.currentBackoffMs = dGpuCfg.initialBackoffMs ∧
    minerAfterRecovery.consecutiveFailures = 0 ∧
    minerAfterFail2.restartTimer = some { cooldownMs := 1000, fullReset := false } ∧
    min (1000 * 2 ^ (2 - 1)) 30000 = 2000 ∧
    (GpuMiner.handleSolutionEvent dGpuCfg 5 minerAfterFail1).consecutiveFailures = 0 ∧
    (GpuMiner.handleSolutionEvent dGpuCfg 5 minerAfterFail1).currentBackoffMs
      = dGpuCfg.initialBackoffMs := by decide

/-- C6: whenever a generic failure brings `consecutiveFailures` up to
the configured threshold (and the engine is neither already recovering
nor stop-requested, so the request is actually armed), the scheduled
recovery carries `fullReset = true`; and firing any pending full-reset
timer leaves `consecutiveFailures = 0` and the backoff at its initial
value. -/
theorem c6_full_reset_escalation (cfg : GpuMiner.GpuCfg) (s : GpuMiner.MinerState)
    (code : Option Int)
    (h1 : s.isRecovering = false) (h2 : s.stopRequested = false)
    (h3 : s.isRunning = true) (h4 : cfg.fullResetThreshold ≤ s.consecutiveFailures + 1)
    (h5 : code ≠ some 0)
    (t : GpuMiner.MinerState) (req : GpuMiner.TimerReq)
    (h6 : t.restartTimer = some req) (h7 : req.fullReset = true) :
    (∃ r, (GpuMiner.childExit cfg code s).restartTimer = some r ∧ r.fullReset = true) ∧
    (GpuMiner.timerFire cfg t).consecutiveFailures = 0 ∧
    (GpuMiner.timerFire cfg t).currentBackoffMs = cfg.initialBackoffMs := by
  refine ⟨?_, ?_⟩
  · simp [GpuMiner.childExit, GpuMiner.scheduleRestart, h1, h2, h3, h5, h4]
  · unfold GpuMiner.timerFire
    rw [h6]
    simp only [h7, if_true]
    unfold GpuMiner.startFn GpuMiner.initializeFn GpuMiner.cleanupFn GpuMiner.stopFn
    by_cases hc : t.child <;> by_cases hr : t.isRunning <;> by_cases hs : t.currentSession <;>
      simp [hc, hr, hs]

/-- C6 witness: threshold reached at the third failure of a concrete
running state; a concrete pending full-reset timer then fires. -/
theorem c6_full_reset_escalation_witness :
    ((({ isRunning := true, consecutiveFailures := 2 } : GpuMiner.MinerState).isRecovering = false) ∧
     (({ isRunning := true, consecutiveFailures := 2 } : GpuMiner.MinerState).stopRequested = false) ∧
     (dGpuCfg.fullResetThreshold ≤ 2 + 1)) ∧
    (∃ r, (GpuMiner.childExit dGpuCfg (some 1)
            { isRunning := true, consecutiveFailures := 2 }).restartTimer = some r ∧
          r.fullReset = true) ∧
    (GpuMiner.timerFire dGpuCfg
        { restartTimer := some { cooldownMs := 5000, fullReset := true } }).consecutiveFailures = 0 ∧
    (GpuMiner.timerFire dGpuCfg
        { restartTimer := some { cooldownMs := 5000, fullReset := true } }).currentBackoffMs
      = dGpuCfg.initialBackoffMs :=
  ⟨⟨by decide, by decide, by decide⟩,
   c6_full_reset_escalation dGpuCfg { isRunning := true, consecutiveFailures := 2 } (some 1)
     (by decide) (by decide) (by decide) (by decide) (by decide)
     { restartTimer := some { cooldownMs := 5000, fullReset := true } }
     { cooldownMs := 5000, fullReset := true } (by decide) (by decide)⟩

end GpuRecoveryClaims

namespace MiningSys

theorem handleMinerMetrics_acc_step (s : SysState) (sid : String) (v : Nat)
    (sess : Session) (h : s.sessions sid = some sess) :
    ((handleMinerMetrics s sid none (some v)).sessions sid).map
        (fun se => (se.meta.totalHashesAcc, se.meta.lastMinerTotalHashes))
      = some (specAccum (sess.meta.totalHashesAcc, sess.meta.lastMinerTotalHashes) v) := by
  unfold handleMinerMetrics specAccum
  rw [h]
  cases hb : sess.meta.lastMinerTotalHashes with
  | none => simp [setSession, hb]
  | some b => by_cases hle : b ≤ jsU32 v <;> simp [setSession, hb, hle]

theorem metricsRun_acc (sid : String) (vs : List Nat) (s : SysState)
    (sess : Session) (h : s.sessions sid = some sess) :
    ((metricsRun sid vs s).sessions sid).map
        (fun se => (se.meta.totalHashesAcc, se.meta.lastMinerTotalHashes))
      = some (vs.foldl specAccum (sess.meta.totalHashesAcc, sess.meta.lastMinerTotalHashes)) := by
  induction vs generalizing s sess with
  | nil => simp [metricsRun, h]
  | cons v rest ih =>
    have hstep := handleMinerMetrics_acc_step s sid v sess h
    obtain ⟨sess1, h1, h2⟩ := Option.map_eq_some'.mp hstep
    have hrest := ih (handleMinerMetrics s sid none (some v)) sess1 h1
    simp only [metricsRun, List.foldl_cons] at hrest ⊢
    rw [hrest, h2]

theorem handleSolution_dup (s : SysState) (sid nonce hash : String)
    (h : (nonce, hash) ∈ s.foundSolutions) :
    handleSolution s sid nonce hash = s := by
  unfold handleSolution
  rw [if_pos h]

theorem solutionRun_dup (sid nonce hash : String) (n : Nat) (s : SysState)
    (h : (nonce, hash) ∈ s.foundSolutions) :
    solutionRun sid nonce hash n s = s := by
  induction n with
  | zero => rfl
  | succ k ih =>
    unfold solutionRun
    rw [handleSolution_dup s sid nonce hash h]
    exact ih

theorem handleSolution_first (s : SysState) (sid nonce hash : String) (sess : Session)
    (hf : (nonce, hash) ∉ s.foundSolutions)
    (hl : (nonce, hash) ∉ s.solutionLock)
    (hs : s.sessions sid = some sess) :
    (nonce, hash) ∈ (handleSolution s sid nonce hash).foundSolutions ∧
    (handleSolution s sid nonce hash).persistLog = (nonce, hash) :: s.persistLog ∧
    (handleSolution s sid nonce hash).broadcastLog = (nonce, hash) :: s.broadcastLog ∧
    (handleSolution s sid nonce hash).sessions sid
      = some { sess with meta := { sess.meta with solutionsAcc := sess.meta.solutionsAcc + 1 } } ∧
    (handleSolution s sid nonce hash).statsSolutions = s.statsSolutions + 1 := by
  unfold handleSolution
  rw [if_neg hf, if_neg hl, hs]
  refine ⟨List.mem_cons_self _ _, rfl, rfl, ?_, rfl⟩
  simp [setSession]

end MiningSys

section OrchestratorClaims

open MiningSys

/-- C2: delivering the same `(nonce, hash)` pair to the orchestrator's
solution handler `n ≥ 2` times against a registered session — starting
from any state in which the pair is not yet known or locked — results
in exactly one additional persist (`saveSolution`) call, exactly one
additional broadcast call, and exactly one increment of the session's
`meta.solutionsAcc`. -/
theorem solution_dedup (s0 : MiningSys.SysState) (sid nonce hash : String)
    (sess : MiningSys.Session) (n : Nat)
    (hn : 2 ≤ n)
    (hf : (nonce, hash) ∉ s0.foundSolutions)
    (hl : (nonce, hash) ∉ s0.solutionLock)
    (hs : s0.sessions sid = some sess) :
    (MiningSys.solutionRun sid nonce hash n s0).persistLog.count (nonce, hash)
        = s0.persistLog.count (nonce, hash) + 1 ∧
    (MiningSys.solutionRun sid nonce hash n s0).broadcastLog.count (nonce, hash)
        = s0.broadcastLog.count (nonce, hash) + 1 ∧
    ∃ sess', (MiningSys.solutionRun sid nonce hash n s0).sessions sid = some sess' ∧
      sess'.meta.solutionsAcc = sess.meta.solutionsAcc + 1 := by
  obtain ⟨k, rfl⟩ : ∃ k, n = k + 1 := ⟨n - 1, by omega⟩
  obtain ⟨hmem, hp, hb, hss, _⟩ := MiningSys.handleSolution_first s0 sid nonce hash sess hf hl hs
  have hrun : MiningSys.solutionRun sid nonce hash (k + 1) s0
      = MiningSys.handleSolution s0 sid nonce hash := by
    unfold MiningSys.solutionRun
    exact MiningSys.solutionRun_dup sid nonce hash k _ hmem
  rw [hrun, hp, hb]
  refine ⟨List.count_cons_self _ _, List.count_cons_self _ _, _, hss, rfl⟩

/-- C2 witness: two deliveries of a concrete pair to the fresh
single-session system, evaluated through the theorem. -/
theorem solution_dedup_witness :
    (2 ≤ 2 ∧ ("1f" , "ab") ∉ MiningSys.freshSysOne.foundSolutions ∧
      MiningSys.freshSysOne.sessions "s1" = some {}) ∧
    ((MiningSys.solutionRun "s1" "1f" "ab" 2 MiningSys.freshSysOne).persistLog.count ("1f", "ab")
        = MiningSys.freshSysOne.persistLog.count ("1f", "ab") + 1 ∧
     (MiningSys.solutionRun "s1" "1f" "ab" 2 MiningSys.freshSysOne).broadcastLog.count ("1f", "ab")
        = MiningSys.freshSysOne.broadcastLog.count ("1f", "ab") + 1 ∧
     ∃ sess', (MiningSys.solutionRun "s1" "1f" "ab" 2 MiningSys.freshSysOne).sessions "s1" = some sess' ∧
       sess'.meta.solutionsAcc = (({} : MiningSys.Session).meta).solutionsAcc + 1) :=
  ⟨⟨by decide, by decide, by decide⟩,
   solution_dedup MiningSys.freshSysOne "s1" "1f" "ab" {} 2
     (by decide) (by decide) (by decide) (by decide)⟩

/-- C3: on a `nonce_exhausted` event for a known session with a config,
the orchestrator bumps `meta.nonceRollovers` by exactly 1, zeroes
`meta.currentNonce` and `config.base_nonce`, refreshes
`config.timestamp` to the current time, and calls the engine's
`start` on the same session exactly once if and only if `shouldRun`
is set and the session is not paused. -/
theorem nonce_exhausted_rollover (s : MiningSys.SysState) (sid : String) (now : Nat)
    (sess : MiningSys.Session) (c : MiningSys.MCfg)
    (h1 : s.sessions sid = some sess) (h2 : sess.config = some c) :
    ((MiningSys.handleMinerError s sid "nonce_exhausted" now).sessions sid).map
        (fun sess' => (sess'.meta.nonceRollovers, sess'.meta.currentNonce, sess'.config,
                       sess'.startCalls, sess'.status))
      = some (sess.meta.nonceRollovers + 1, 0,
              some { base_nonce := 0, timestamp := now },
              sess.startCalls + (if s.shouldRun = true ∧ sess.status ≠ "paused" then 1 else 0),
              if s.shouldRun = true ∧ sess.status ≠ "paused" then "running" else sess.status) := by
  unfold MiningSys.handleMinerError
  rw [h1]
  simp only [h2, reduceIte]
  by_cases hrun : s.shouldRun = true ∧ sess.status ≠ "paused"
  · rw [if_pos (by simp [hrun.1, hrun.2])]
    simp [MiningSys.setSession, hrun]
  · rw [if_neg (by simpa using hrun)]
    simp [MiningSys.setSession, hrun]

/-- C3 witness: a concrete known running session with a config through
the theorem. -/
theorem nonce_exhausted_rollover_witness :
    (MiningSys.freshSysOne.sessions "s1" = some {} ∧
      MiningSys.Session.config {} = some ({} : MiningSys.MCfg)) ∧
    ((MiningSys.handleMinerError MiningSys.freshSysOne "s1" "nonce_exhausted" 1755491117).sessions "s1").map
        (fun sess' => (sess'.meta.nonceRollovers, sess'.meta.currentNonce, sess'.config,
                       sess'.startCalls, sess'.status))
      = some ((MiningSys.Session.meta {}).nonceRollovers + 1, 0,
              some { base_nonce := 0, timestamp := 1755491117 },
              MiningSys.Session.startCalls {} +
                (if MiningSys.freshSysOne.shouldRun = true ∧
                    MiningSys.Session.status {} ≠ "paused" then 1 else 0),
              if MiningSys.freshSysOne.shouldRun = true ∧
                  MiningSys.Session.status {} ≠ "paused" then "running"
              else MiningSys.Session.status {}) :=
  ⟨⟨by decide, by decide⟩,
   nonce_exhausted_rollover MiningSys.freshSysOne "s1" 1755491117 {} {} (by decide) (by decide)⟩

/-- C4 counterexample: a first report of `totalHashes = 2^32` (a u64
value) is truncated by the handler's `>>> 0` to 0, so 0 — not the full
value — is added to `totalHashesAcc`, contradicting the claim that on
the first report the full value is added. -/
theorem metrics_accumulation_counterexample :
    ((MiningSys.handleMinerMetrics MiningSys.freshSysOne "s1" none (some 4294967296)).sessions "s1").map
        (fun se => se.meta.totalHashesAcc) = some 0 ∧
    ¬ ((MiningSys.handleMinerMetrics MiningSys.freshSysOne "s1" none (some 4294967296)).sessions "s1").map
        (fun se => se.meta.totalHashesAcc) = some 4294967296 :=
  ⟨by decide, by decide⟩

/-- C4 (amended): the handler accumulates `totalHashesAcc` by delta
against the engine-reported total after truncating each report to
uint32 (`>>> 0`): the first (truncated) report is added in full; a
later report adds the difference when it is at least the previous
baseline and is added in full otherwise; in particular reports of
5000000, 8000000, then 1000000 (all below `2^32`, the last after an
engine restart) yield `totalHashesAcc = 9000000`. -/
theorem metrics_accumulation (sid : String) (vs : List Nat) (s : MiningSys.SysState)
    (sess : MiningSys.Session) (h : s.sessions sid = some sess) :
    ((MiningSys.metricsRun sid vs s).sessions sid).map
        (fun se => (se.meta.totalHashesAcc, se.meta.lastMinerTotalHashes))
      = some (vs.foldl MiningSys.specAccum
          (sess.meta.totalHashesAcc, sess.meta.lastMinerTotalHashes)) ∧
    ((MiningSys.metricsRun "s1" [5000000, 8000000, 1000000] MiningSys.freshSysOne).sessions "s1").map
        (fun se => se.meta.totalHashesAcc) = some 9000000 :=
  ⟨MiningSys.metricsRun_acc sid vs s sess h, by decide⟩

/-- C4 amended witness: the three-report example against the fresh
session, evaluated through the theorem. -/
theorem metrics_accumulation_witness :
    (MiningSys.freshSysOne.sessions "s1" = some {}) ∧
    (((MiningSys.metricsRun "s1" [5000000, 8000000, 1000000] MiningSys.freshSysOne).sessions "s1").map
        (fun se => (se.meta.totalHashesAcc, se.meta.lastMinerTotalHashes))
      = some ([5000000, 8000000, 1000000].foldl MiningSys.specAccum
          ((MiningSys.Session.meta {}).totalHashesAcc,
           (MiningSys.Session.meta {}).lastMinerTotalHashes)) ∧
     ((MiningSys.metricsRun "s1" [5000000, 8000000, 1000000] MiningSys.freshSysOne).sessions "s1").map
        (fun se => se.meta.totalHashesAcc) = some 9000000) :=
  ⟨by decide,
   metrics_accumulation "s1" [5000000, 8000000, 1000000] MiningSys.freshSysOne {} (by decide)⟩

end OrchestratorClaims

namespace SolutionMsg

theorem natToHexStr_length_le (n k : Nat) (h : n < 16 ^ k) (hk : 1 ≤ k) :
    (natToHexStr n).length ≤ k := by
  induction k generalizing n with
  | zero => omega
  | succ k ih =>
    unfold natToHexStr
    split
    · simp
    · rename_i hn
      rw [List.length_append]
      simp only [List.length_cons, List.length_nil]
      have hk1 : 1 ≤ k := by
        rcases Nat.eq_zero_or_pos k with hk0 | hk0
        · subst hk0
          simp at h
          omega
        · exact hk0
      have hdiv : n / 16 < 16 ^ k := by
        have hmul : n < 16 ^ k * 16 := by
          rw [← pow_succ]
          exact h
        omega
      have := ih (n / 16) hdiv hk1
      omega

theorem padStart_length (s : List Char) (len : Nat) (c : Char) :
    (padStart s len c).length = max len s.length := by
  simp [padStart]
  omega

theorem string_mk_length (l : List Char) : (String.mk l).length = l.length := rfl

end SolutionMsg

section SolutionShapeClaims

open SolutionMsg

/-- C9 counterexample: the CPU worker path does not deliver the nonce
as a uint32 number — `CPUWorker.handleSolution` renders it as
`nonce.toString(16).padStart(8, "0")`, so for nonce 0 the orchestrator
receives the string "00000000", which is not a number at all. -/
theorem solution_nonce_shape_counterexample :
    (SolutionMsg.cpuDelivered (List.replicate 84 0) 0 (List.replicate 32 0)).nonce
        = SolutionMsg.JsVal.str "00000000" ∧
    SolutionMsg.isU32Num
        (SolutionMsg.cpuDelivered (List.replicate 84 0) 0 (List.replicate 32 0)).nonce = false := by
  have h0 : natToHexStr 0 = ['0'] := by
    unfold natToHexStr
    simp
    decide
  constructor
  · show JsVal.str (String.mk (padStart (natToHexStr 0) 8 '0')) = JsVal.str "00000000"
    rw [h0]
    decide
  · rfl

/-- C9 (amended): a solution delivered from the GPU compute-process
path carries the nonce as a uint32 number, the hash as the 64-hex-char
encoding of the 32-byte digest, and the header as the 176-hex-char
encoding of the 88-byte header; a solution from the CPU worker path
carries the same hash and header encodings, but its nonce is a
lowercase hex STRING, zero-padded to 8 characters (exactly 8 characters
when the nonce is below `2^32`). -/
theorem solution_shapes (pre hh : List Nat) (nonce : Nat)
    (hp : pre.length = 84) (hh32 : hh.length = 32) (hn : nonce < 4294967296) :
    ((gpuDelivered pre nonce hh).nonce = JsVal.num (jsU32 nonce) ∧
      isU32Num (gpuDelivered pre nonce hh).nonce = true) ∧
    ((gpuDelivered pre nonce hh).hash = JsVal.str (bytesToHex hh) ∧
      (bytesToHex hh).length = 64) ∧
    ((gpuDelivered pre nonce hh).header
        = JsVal.str (bytesToHex (HashingUtils.buildHeaderWithNonce pre (jsU32 nonce))) ∧
      (bytesToHex (HashingUtils.buildHeaderWithNonce pre (jsU32 nonce))).length = 176) ∧
    ((cpuDelivered pre nonce hh).nonce = JsVal.str (String.mk (padStart (natToHexStr nonce) 8 '0')) ∧
      (String.mk (padStart (natToHexStr nonce) 8 '0')).length = 8) ∧
    (cpuDelivered pre nonce hh).hash = JsVal.str (bytesToHex hh) ∧
    ((cpuDelivered pre nonce hh).header
        = JsVal.str (bytesToHex (HashingUtils.buildHeaderWithNonce pre nonce)) ∧
      (bytesToHex (HashingUtils.buildHeaderWithNonce pre nonce)).length = 176) := by
  refine ⟨⟨rfl, ?_⟩, ⟨rfl, ?_⟩, ⟨rfl, ?_⟩, ⟨rfl, ?_⟩, rfl, ⟨rfl, ?_⟩⟩
  · simp [isU32Num, gpuDelivered, jsU32]
    omega
  · rw [bytesToHex_length, hh32]
  · rw [bytesToHex_length, HashingUtils.buildHeaderWithNonce_length, hp]
  · rw [string_mk_length, padStart_length]
    have h8 : nonce < 16 ^ 8 := by simpa using hn
    have := natToHexStr_length_le nonce 8 h8 (by norm_num)
    omega
  · rw [bytesToHex_length, HashingUtils.buildHeaderWithNonce_length, hp]

/-- C9 amended witness: a concrete 84-byte prefix, 32-byte digest and
nonce 3735928559 through the theorem. -/
theorem solution_shapes_witness :
    ((List.replicate 84 (0 : Nat)).length = 84 ∧ (List.replicate 32 (0 : Nat)).length = 32 ∧
      3735928559 < 4294967296) ∧
    (((gpuDelivered (List.replicate 84 0) 3735928559 (List.replicate 32 0)).nonce
        = JsVal.num (jsU32 3735928559) ∧
      isU32Num (gpuDelivered (List.replicate 84 0) 3735928559 (List.replicate 32 0)).nonce = true) ∧
    ((gpuDelivered (List.replicate 84 0) 3735928559 (List.replicate 32 0)).hash
        = JsVal.str (bytesToHex (List.replicate 32 0)) ∧
      (bytesToHex (List.replicate 32 0)).length = 64) ∧
    ((gpuDelivered (List.replicate 84 0) 3735928559 (List.replicate 32 0)).header
        = JsVal.str (bytesToHex
            (HashingUtils.buildHeaderWithNonce (List.replicate 84 0) (jsU32 3735928559))) ∧
      (bytesToHex (HashingUtils.buildHeaderWithNonce (List.replicate 84 0)
          (jsU32 3735928559))).length = 176) ∧
    ((cpuDelivered (List.replicate 84 0) 3735928559 (List.replicate 32 0)).nonce
        = JsVal.str (String.mk (padStart (natToHexStr 3735928559) 8 '0')) ∧
      (String.mk (padStart (natToHexStr 3735928559) 8 '0')).length = 8) ∧
    (cpuDelivered (List.replicate 84 0) 3735928559 (List.replicate 32 0)).hash
        = JsVal.str (bytesToHex (List.replicate 32 0)) ∧
    ((cpuDelivered (List.replicate 84 0) 3735928559 (List.replicate 32 0)).header
        = JsVal.str (bytesToHex (HashingUtils.buildHeaderWithNonce (List.replicate 84 0) 3735928559)) ∧
      (bytesToHex (HashingUtils.buildHeaderWithNonce (List.replicate 84 0) 3735928559)).length = 176)) :=
  ⟨⟨by decide, by decide, by decide⟩,
   solution_shapes (List.replicate 84 0) (List.replicate 32 0) 3735928559
     (by decide) (by decide) (by decide)⟩

end SolutionShapeClaims
